import Mathlib

/-!
Lazy-load visibility scheduler of `src/local/js/app.js`

A shallow embedding of `checkVisible`, `addPath`, `lazyLoad`, the `lazyLoad`
event listener and `classToggle`.

Modelling choices:

* `checkVisible` is embedded twice.  In the first embedding coordinates live in
  an arbitrary linearly ordered commutative ring `α` (instantiated at `ℤ` for
  the concrete scenarios; `ℚ` is another instance), so arithmetic is exact.
  The second, `checkVisibleBinary64`, rounds every subtraction and addition as
  IEEE 754 binary64 does; `checkVisibleBinary64_eq_of_exact` relates the two.
* A `DOMTokenList` update validates its token first and throws on an invalid
  one; a function that can throw returns an `Except`, and an exception means
  that nothing has been changed.
* An optional JavaScript argument is an `Option` (`none` is `undefined`).
* An element is its class list and its attribute list; the attribute list is
  ordered, as a `NamedNodeMap` is.
* The page is the list of its containers in document order and a container is
  identified by its position.  A container holds its direct children; lazy
  containers nested inside one another are not modelled.
* The bounding rectangle is a field of the container.  It is constant during
  one pass and may change arbitrarily between passes (`relayout`).
* `lazyLoad` returns the page after the pass together with the list of
  positions the `lazyLoad` event was dispatched to.
-/

namespace Marketplace

/-! ## Geometry -/

/-- The part of `elm.getBoundingClientRect()` that `checkVisible` reads. -/
structure DOMRect (α : Type) where
  top : α
  bottom : α
deriving DecidableEq

/-- The two heights read by `checkVisible`:
`document.documentElement.clientHeight` and `window.innerHeight`. -/
structure Viewport (α : Type) where
  clientHeight : α
  innerHeight : α
deriving DecidableEq

/-- The expression `threshold || 0`: `undefined` and `0` are falsy. -/
def thresholdOrZero {α : Type} [LinearOrderedCommRing α] : Option α → α
  | none => 0
  | some t => if t = 0 then 0 else t

/-- The expression `mode || (the string visible)`: `undefined` and the empty
string are falsy. -/
def modeOrVisible : Option String → String
  | none => "visible"
  | some m => if m = "" then "visible" else m

/-- The local `viewHeight` of `checkVisible`:
`Math.max(document.documentElement.clientHeight, window.innerHeight)`. -/
def viewHeight {α : Type} [LinearOrderedCommRing α] (vp : Viewport α) : α :=
  max vp.clientHeight vp.innerHeight

/-- The function `checkVisible(elm, threshold, mode)` (app.js lines 88-98).
`rect` is `elm.getBoundingClientRect()`. -/
def checkVisible {α : Type} [LinearOrderedCommRing α]
    (vp : Viewport α) (rect : DOMRect α) (threshold : Option α) (mode : Option String) : Bool :=
  let threshold := thresholdOrZero threshold
  let mode := modeOrVisible mode
  let viewHeight := viewHeight vp
  let above := decide (rect.bottom - threshold < 0)
  let below := decide (rect.top - viewHeight + threshold ≥ 0)
  if mode = "above" then above else (if mode = "below" then below else (!above && !below))

/-! ## Attributes and class lists -/

/-- The attribute list of an element (a `NamedNodeMap`): names with values, in
document order. -/
abbrev Attrs := List (String × String)

/-- The method `hasAttribute(name)`. -/
def hasAttribute (attrs : Attrs) (name : String) : Bool :=
  attrs.any (fun kv => kv.1 == name)

/-- The method `getAttribute(name)`; `none` is `null`. -/
def getAttribute (attrs : Attrs) (name : String) : Option String :=
  (attrs.find? (fun kv => kv.1 == name)).map Prod.snd

/-- The method `setAttribute(name, value)`: an existing attribute keeps its
place and takes the new value, a new one is appended. -/
def setAttribute (attrs : Attrs) (name value : String) : Attrs :=
  if hasAttribute attrs name then
    attrs.map (fun kv => if kv.1 == name then (kv.1, value) else kv)
  else attrs ++ [(name, value)]

/-- The method `removeAttribute(name)`. -/
def removeAttribute (attrs : Attrs) (name : String) : Attrs :=
  attrs.filter (fun kv => !(kv.1 == name))

/-- A class list (`DOMTokenList`): the tokens in order. -/
abbrev ClassList := List String

/-- The method `classList.contains(token)`. -/
def ClassList.containsToken (cl : ClassList) (c : String) : Bool :=
  cl.any (fun x => x == c)

/-- The exceptions a `DOMTokenList` method raises on a token that is not a
valid class token. -/
inductive DOMException where
  | SyntaxError
  | InvalidCharacterError
deriving DecidableEq

deriving instance DecidableEq for Except

/-- ASCII whitespace, as the DOM standard defines it: tab, line feed, form
feed, carriage return and space. -/
def isAsciiWhitespace (c : Char) : Bool :=
  c.toNat == 9 || c.toNat == 10 || c.toNat == 12 || c.toNat == 13 || c.toNat == 32

/-- The validation every `DOMTokenList` update runs first: the empty string is
a `SyntaxError`, a token with ASCII whitespace an `InvalidCharacterError`. -/
def validateToken (token : String) : Except DOMException Unit :=
  if token = "" then Except.error DOMException.SyntaxError
  else if token.toList.any isAsciiWhitespace then
    Except.error DOMException.InvalidCharacterError
  else Except.ok ()

/-- The method `classList.add(token)`: throws on an invalid token before
changing anything, otherwise appends the token unless already present. -/
def ClassList.add (cl : ClassList) (token : String) : Except DOMException ClassList :=
  match validateToken token with
  | Except.error e => Except.error e
  | Except.ok () => Except.ok (if cl.containsToken token then cl else cl ++ [token])

/-- The method `classList.remove(token)` on a token that passes
`validateToken`.  Both call sites pass such a token: the listener the literal
`lazy`, `classToggle` a class name that `classList.add` has just accepted. -/
def ClassList.removeToken (cl : ClassList) (c : String) : ClassList :=
  cl.filter (fun x => !(x == c))

/-- A media child of a lazy container, or a child of a tab strip: its class
list and its attributes. -/
structure Element where
  classList : ClassList
  attrs : Attrs
deriving DecidableEq

/-- The value that reaches `setAttribute` from `getAttribute`: a `null`
result is converted to the string `null`. -/
def attrValue : Option String → String
  | some v => v
  | none => "null"

/-- The function `addPath(target)` (app.js lines 102-116). -/
def addPath (target : Element) : Element :=
  if hasAttribute target.attrs "data-src" then
    let imgPath := attrValue (getAttribute target.attrs "data-src")
    { target with
      attrs := removeAttribute (setAttribute target.attrs "src" imgPath) "data-src" }
  else if hasAttribute target.attrs "data-srcset" then
    let imgPath := attrValue (getAttribute target.attrs "data-srcset")
    { target with
      attrs := removeAttribute (setAttribute target.attrs "srcset" imgPath) "data-srcset" }
  else target

/-! ## Lazy containers and the evaluation pass -/

/-- A container of the page: its class list, its current bounding rectangle,
whether the `lazyLoad` listener of lines 132-145 is registered on it, and its
direct children. -/
structure Container (α : Type) where
  classList : ClassList
  rect : DOMRect α
  listener : Bool
  children : List Element
deriving DecidableEq

/-- The containers of the page, in document order.  A container is identified
by its position. -/
abbrev Document (α : Type) := List (Container α)

/-- The callback applied to each child by the listener (lines 136-142). -/
def resolveChild (el : Element) : Element :=
  if hasAttribute el.attrs "data-src" || hasAttribute el.attrs "data-srcset" then
    addPath el
  else el

/-- The body of the `lazyLoad` listener (lines 133-144), run with `this`
bound to the container. -/
def onLazyLoad {α : Type} (el : Container α) : Container α :=
  { el with
    children := el.children.map resolveChild
    classList := el.classList.removeToken "lazy" }

/-- The call `el.dispatchEvent(eventLazy)`: runs the listener when one is
registered on `el`. -/
def dispatchEvent {α : Type} (el : Container α) : Container α :=
  if el.listener then onLazyLoad el else el

/-- Whether the container at position `i` matches the selector `.lazy`. -/
def isLazy {α : Type} (doc : Document α) (i : Nat) : Bool :=
  match doc[i]? with
  | some el => el.classList.containsToken "lazy"
  | none => false

/-- The static node list `document.querySelectorAll(.lazy)`, as positions. -/
def querySelectorAllLazy {α : Type} (doc : Document α) : List Nat :=
  (List.range doc.length).filter (isLazy doc)

/-- Load-time registration (lines 130-145): every container matching `.lazy`
gets the listener. -/
def registerListeners {α : Type} (doc : Document α) : Document α :=
  doc.map (fun el =>
    if el.classList.containsToken "lazy" then { el with listener := true } else el)

/-- One iteration of the `forEach` in `lazyLoad` (lines 121-125).  The state is
the page together with the log of positions the event was dispatched to. -/
def lazyLoadStep {α : Type} [LinearOrderedCommRing α] (vp : Viewport α)
    (st : Document α × List Nat) (i : Nat) : Document α × List Nat :=
  match st.1[i]? with
  | some el =>
    if checkVisible vp el.rect (some (-500)) none then
      (st.1.set i (dispatchEvent el), st.2 ++ [i])
    else st
  | none => st

/-- The function `lazyLoad()` (lines 118-126): the page after the pass and the
positions the event was dispatched to, in order. -/
def lazyLoad {α : Type} [LinearOrderedCommRing α] (vp : Viewport α)
    (doc : Document α) : Document α × List Nat :=
  (querySelectorAllLazy doc).foldl (lazyLoadStep vp) (doc, [])

/-- A change of geometry between two passes (scrolling, resizing, reflow):
container `i` gets the rectangle `g i`. -/
def relayout {α : Type} (g : Nat → DOMRect α) (doc : Document α) : Document α :=
  doc.mapIdx (fun i el => { el with rect := g i })

/-- A `scroll` event (lines 147-150): the geometry has changed to `ev`, then
`lazyLoad()` runs. -/
def onScroll {α : Type} [LinearOrderedCommRing α]
    (ev : Viewport α × (Nat → DOMRect α)) (doc : Document α) : Document α × List Nat :=
  lazyLoad ev.1 (relayout ev.2 doc)

/-- A sequence of `scroll` events: the final page and every dispatch made. -/
def onScrolls {α : Type} [LinearOrderedCommRing α] :
    List (Viewport α × (Nat → DOMRect α)) → Document α → Document α × List Nat
  | [], doc => (doc, [])
  | ev :: evs, doc =>
    let r := onScroll ev doc
    let rs := onScrolls evs r.1
    (rs.1, r.2 ++ rs.2)

/-! ## Class toggle -/

/-- The function `classToggle(target, className)` (lines 156-169).  `children`
is `target.parentNode.children` and `target` the position of the target in
it; `child !== target` compares positions.  The result is the children after
the call, or the exception `classList.add` threw, in which case nothing has
been changed. -/
def classToggle (children : List Element) (target : Nat) (className : String) :
    Except DOMException (List Element) :=
  match children[target]? with
  | none => Except.ok children
  | some t =>
    if t.classList.containsToken className == false then
      match t.classList.add className with
      | Except.error e => Except.error e
      | Except.ok cl =>
        Except.ok ((children.set target { t with classList := cl }).mapIdx
          (fun j sItem =>
            if j ≠ target then
              { sItem with classList := sItem.classList.removeToken className }
            else sItem))
    else Except.ok children

/-! ## Binary64 arithmetic

`checkVisible` above computes in exact arithmetic.  In the browser the
coordinates are IEEE 754 binary64 numbers and each subtraction and addition
rounds to nearest, ties to even.  The definitions below embed the same function
over finite binary64 values; overflow to infinity is outside the model. -/

/-- A finite binary64 value, `mant * 2 ^ exp`. -/
structure Binary64 where
  mant : Int
  exp : Int
deriving DecidableEq

/-- The value denoted, as a rational number. -/
def Binary64.toRat (a : Binary64) : ℚ := (a.mant : ℚ) * (2 : ℚ) ^ a.exp

/-- Whether the pair is a binary64 number as stored: at most 53 significant
bits and an exponent in the finite range. -/
def Binary64.isDouble (a : Binary64) : Bool :=
  decide (a.mant.natAbs < 2 ^ 53) && decide (-1074 ≤ a.exp) && decide (a.exp ≤ 971)

/-- Number of binary digits of `n`, with `fuel` bounding the recursion. -/
def bitLengthAux : Nat → Nat → Nat
  | 0, _ => 0
  | fuel + 1, n => if n = 0 then 0 else bitLengthAux fuel (n / 2) + 1

/-- Number of binary digits of `n` (0 for 0). -/
def bitLength (n : Nat) : Nat := bitLengthAux n n

/-- Rounding of the exact value `m * 2 ^ e` to 53 significant bits, to nearest
with ties to even. -/
def roundNearestEven (m e : Int) : Binary64 :=
  let n := m.natAbs
  if bitLength n ≤ 53 then ⟨m, e⟩
  else
    let s := bitLength n - 53
    let q := n / 2 ^ s
    let r := n % 2 ^ s
    let q2 := if 2 ^ s < 2 * r ∨ (2 * r = 2 ^ s ∧ q % 2 = 1) then q + 1 else q
    ⟨m.sign * (q2 : Int), e + (s : Int)⟩

/-- The mantissa of `a` at the exponent `e`, for `e ≤ a.exp`. -/
def Binary64.mantAt (a : Binary64) (e : Int) : Int := a.mant * 2 ^ (a.exp - e).toNat

/-- The operator `a - b` on numbers. -/
def Binary64.sub (a b : Binary64) : Binary64 :=
  let e := min a.exp b.exp
  roundNearestEven (a.mantAt e - b.mantAt e) e

/-- The operator `a + b` on numbers. -/
def Binary64.add (a b : Binary64) : Binary64 :=
  let e := min a.exp b.exp
  roundNearestEven (a.mantAt e + b.mantAt e) e

/-- The function `Math.max(a, b)`. -/
def Binary64.max (a b : Binary64) : Binary64 :=
  let e := min a.exp b.exp
  if a.mantAt e < b.mantAt e then b else a

/-- The comparison `a < 0`. -/
def Binary64.ltZero (a : Binary64) : Bool := decide (a.mant < 0)

/-- The comparison `a >= 0`. -/
def Binary64.geZero (a : Binary64) : Bool := decide (0 ≤ a.mant)

/-- Whether `a - b` is computed without rounding. -/
def Binary64.subExact (a b : Binary64) : Bool :=
  decide (bitLength (a.mantAt (min a.exp b.exp) - b.mantAt (min a.exp b.exp)).natAbs ≤ 53)

/-- Whether `a + b` is computed without rounding. -/
def Binary64.addExact (a b : Binary64) : Bool :=
  decide (bitLength (a.mantAt (min a.exp b.exp) + b.mantAt (min a.exp b.exp)).natAbs ≤ 53)

/-- The expression `threshold || 0` on binary64 values. -/
def thresholdOrZeroBinary64 : Option Binary64 → Binary64
  | none => ⟨0, 0⟩
  | some t => if t.mant = 0 then ⟨0, 0⟩ else t

/-- The function `checkVisible(elm, threshold, mode)` (app.js lines 88-98) with
binary64 arithmetic: every `-` and `+` rounds. -/
def checkVisibleBinary64 (vp : Viewport Binary64) (rect : DOMRect Binary64)
    (threshold : Option Binary64) (mode : Option String) : Bool :=
  let threshold := thresholdOrZeroBinary64 threshold
  let mode := modeOrVisible mode
  let viewHeight := Binary64.max vp.clientHeight vp.innerHeight
  let above := (rect.bottom.sub threshold).ltZero
  let below := ((rect.top.sub viewHeight).add threshold).geZero
  if mode = "above" then above else (if mode = "below" then below else (!above && !below))

/-! ## Auxiliary definitions used to state the results -/

/-- The visibility test of `lazyLoad`, `checkVisible(el, -500)`, on the container
at position `i`. -/
def visibleAt {α : Type} [LinearOrderedCommRing α] (vp : Viewport α)
    (doc : Document α) (i : Nat) : Bool :=
  match doc[i]? with
  | some el => checkVisible vp el.rect (some (-500)) none
  | none => false

/-- The body of the `forEach` callback of `lazyLoad` on one container. -/
def lazyLoadVisit {α : Type} [LinearOrderedCommRing α] (vp : Viewport α)
    (el : Container α) : Container α :=
  if checkVisible vp el.rect (some (-500)) none then dispatchEvent el else el

/-- A sample page: an 800 pixel viewport, one lazy container on screen and one
far below, both registered at load time. -/
def samplePage : Document ℤ :=
  registerListeners
    [⟨["lazy"], ⟨100, 200⟩, false, [⟨[], [("data-src", "a.png")]⟩]⟩,
     ⟨["lazy", "card"], ⟨2000, 2100⟩, false, [⟨[], [("data-srcset", "b.png 2x")]⟩]⟩]

/-- A sample tab strip: the first tab is active. -/
def sampleTabs : List Element :=
  [⟨["tab", "active"], []⟩, ⟨["tab"], []⟩, ⟨["tab"], [("data-modal", "m")]⟩]

/-! ## Facts about `checkVisible` -/

section Visibility

variable {α : Type} [LinearOrderedCommRing α]

@[simp] theorem thresholdOrZero_some (t : α) : thresholdOrZero (some t) = t := by
  simp only [thresholdOrZero]
  split_ifs with h
  · exact h.symm
  · rfl

@[simp] theorem thresholdOrZero_none : thresholdOrZero (none : Option α) = 0 := rfl

@[simp] theorem modeOrVisible_none : modeOrVisible none = "visible" := rfl

@[simp] theorem modeOrVisible_above : modeOrVisible (some "above") = "above" := by decide

@[simp] theorem modeOrVisible_below : modeOrVisible (some "below") = "below" := by decide

/-- In the default mode the result is `!above && !below`. -/
theorem checkVisible_default (vp : Viewport α) (rect : DOMRect α) (t : α) :
    checkVisible vp rect (some t) none =
      (!decide (rect.bottom - t < 0) && !decide (rect.top - viewHeight vp + t ≥ 0)) := by
  simp [checkVisible]

/-- In mode `above` the result is `above`. -/
theorem checkVisible_above (vp : Viewport α) (rect : DOMRect α) (t : α) :
    checkVisible vp rect (some t) (some "above") = decide (rect.bottom - t < 0) := by
  simp [checkVisible]

/-- In mode `below` the result is `below`. -/
theorem checkVisible_below (vp : Viewport α) (rect : DOMRect α) (t : α) :
    checkVisible vp rect (some t) (some "below") =
      decide (rect.top - viewHeight vp + t ≥ 0) := by
  have h : ¬ ("below" = "above") := by decide
  simp [checkVisible, h]

/-- The default-mode result as an interval test: the rectangle meets the band
`[t, viewHeight - t)`. -/
theorem checkVisible_default_iff_band (vp : Viewport α) (rect : DOMRect α) (t : α) :
    checkVisible vp rect (some t) none = true ↔
      t ≤ rect.bottom ∧ rect.top < viewHeight vp - t := by
  rw [checkVisible_default]
  simp only [Bool.and_eq_true, Bool.not_eq_true', decide_eq_false_iff_not, not_lt, ge_iff_le,
    not_le]
  constructor
  · rintro ⟨h1, h2⟩
    exact ⟨by linarith, by linarith⟩
  · rintro ⟨h1, h2⟩
    exact ⟨by linarith, by linarith⟩

/-- C1: in the default mode, `checkVisible(elm, threshold)` is true exactly
when the element is neither above nor below, with
`viewHeight = max(clientHeight, innerHeight)`, `above = (bottom - threshold < 0)`
and `below = (top - viewHeight + threshold >= 0)`. -/
theorem checkVisible_visible_iff (vp : Viewport α) (rect : DOMRect α) (t : α) :
    checkVisible vp rect (some t) none = true ↔
      ¬ (rect.bottom - t < 0) ∧
      ¬ (rect.top - max vp.clientHeight vp.innerHeight + t ≥ 0) := by
  rw [checkVisible_default]
  simp [viewHeight]

/-- C5 as stated fails: a rectangle whose top edge sits exactly on the lower
edge of the viewport touches the closed interval `[0, viewHeight]` but is
reported not visible at threshold 0. -/
theorem checkVisible_closed_overlap_counterexample :
    (⟨800, 900⟩ : DOMRect ℤ).top ≤ (⟨800, 900⟩ : DOMRect ℤ).bottom ∧
    (0 : ℤ) ≤ (⟨800, 900⟩ : DOMRect ℤ).bottom ∧
    (⟨800, 900⟩ : DOMRect ℤ).top ≤ viewHeight (⟨800, 800⟩ : Viewport ℤ) ∧
    checkVisible (⟨800, 800⟩ : Viewport ℤ) ⟨800, 900⟩ (some 0) none = false := by
  decide

/-- C5 (amended): a rectangle that overlaps the half-open interval
`[0, viewHeight)`, that is with `bottom >= 0` and `top < viewHeight`, is
reported visible at threshold 0. -/
theorem checkVisible_overlap (vp : Viewport α) (rect : DOMRect α)
    (hb : 0 ≤ rect.bottom) (ht : rect.top < viewHeight vp) :
    checkVisible vp rect (some 0) none = true := by
  rw [checkVisible_default_iff_band]
  exact ⟨hb, by simpa using ht⟩

theorem checkVisible_overlap_witness :
    (0 : ℤ) ≤ (⟨100, 200⟩ : DOMRect ℤ).bottom ∧
    (⟨100, 200⟩ : DOMRect ℤ).top < viewHeight (⟨800, 760⟩ : Viewport ℤ) ∧
    checkVisible (⟨800, 760⟩ : Viewport ℤ) ⟨100, 200⟩ (some 0) none = true :=
  ⟨by decide, by decide,
    checkVisible_overlap (⟨800, 760⟩ : Viewport ℤ) ⟨100, 200⟩ (by decide) (by decide)⟩

/-- C6: a rectangle fully above the viewport (`bottom < 0`) or fully below it
(`top >= viewHeight`) is reported not visible at threshold 0. -/
theorem checkVisible_outside (vp : Viewport α) (rect : DOMRect α)
    (h : rect.bottom < 0 ∨ viewHeight vp ≤ rect.top) :
    checkVisible vp rect (some 0) none = false := by
  rw [← Bool.not_eq_true, checkVisible_default_iff_band]
  rintro ⟨h1, h2⟩
  rcases h with h | h
  · exact absurd h1 (not_le.mpr h)
  · have h3 : rect.top < viewHeight vp := by simpa using h2
    exact absurd h3 (not_lt.mpr h)

theorem checkVisible_outside_witness :
    ((⟨-300, -100⟩ : DOMRect ℤ).bottom < 0 ∨
      viewHeight (⟨800, 760⟩ : Viewport ℤ) ≤ (⟨-300, -100⟩ : DOMRect ℤ).top) ∧
    checkVisible (⟨800, 760⟩ : Viewport ℤ) ⟨-300, -100⟩ (some 0) none = false :=
  ⟨by decide, checkVisible_outside (⟨800, 760⟩ : Viewport ℤ) ⟨-300, -100⟩ (by decide)⟩

/-- C8 as stated fails: at threshold -500 a rectangle just below an 800 pixel
viewport is reported visible, while at threshold 0 it is not. -/
theorem checkVisible_negative_threshold_counterexample :
    (-500 : ℤ) < 0 ∧
    checkVisible (⟨800, 800⟩ : Viewport ℤ) ⟨900, 1000⟩ (some (-500)) none = true ∧
    checkVisible (⟨800, 800⟩ : Viewport ℤ) ⟨900, 1000⟩ (some 0) none = false := by
  decide

/-- C8 (amended): a negative threshold widens the activation zone: for
`t < 0`, whatever is visible at threshold 0 is visible at threshold `t`. -/
theorem checkVisible_negative_threshold_widens (vp : Viewport α) (rect : DOMRect α) (t : α)
    (ht : t < 0) (h : checkVisible vp rect (some 0) none = true) :
    checkVisible vp rect (some t) none = true := by
  rw [checkVisible_default_iff_band] at h ⊢
  obtain ⟨h1, h2⟩ := h
  exact ⟨by linarith, by linarith⟩

theorem checkVisible_negative_threshold_widens_witness :
    (-500 : ℤ) < 0 ∧
    checkVisible (⟨800, 800⟩ : Viewport ℤ) ⟨100, 200⟩ (some 0) none = true ∧
    checkVisible (⟨800, 800⟩ : Viewport ℤ) ⟨100, 200⟩ (some (-500)) none = true :=
  ⟨by decide, by decide,
    checkVisible_negative_threshold_widens (⟨800, 800⟩ : Viewport ℤ) ⟨100, 200⟩ (-500)
      (by decide) (by decide)⟩

/-- C10 (amended): over exact integer or rational coordinates (any linearly
ordered commutative ring, so no rounding), for a rectangle with
`top <= bottom` and a threshold with `2 * threshold <= viewHeight`, exactly one
of the modes `above`, `below` and `visible` answers true; and for every
viewport some threshold with `2 * threshold > viewHeight` has a rectangle
reported both above and below. -/
theorem checkVisible_modes_partition (vp : Viewport α) (rect : DOMRect α) (t : α)
    (hrect : rect.top ≤ rect.bottom) (ht : 2 * t ≤ viewHeight vp) :
    ((checkVisible vp rect (some t) (some "above") = true ∧
        checkVisible vp rect (some t) (some "below") = false ∧
        checkVisible vp rect (some t) (some "visible") = false) ∨
      (checkVisible vp rect (some t) (some "above") = false ∧
        checkVisible vp rect (some t) (some "below") = true ∧
        checkVisible vp rect (some t) (some "visible") = false) ∨
      (checkVisible vp rect (some t) (some "above") = false ∧
        checkVisible vp rect (some t) (some "below") = false ∧
        checkVisible vp rect (some t) (some "visible") = true)) ∧
    ∃ (t2 : α) (r2 : DOMRect α), 2 * t2 > viewHeight vp ∧ r2.top ≤ r2.bottom ∧
      checkVisible vp r2 (some t2) (some "above") = true ∧
      checkVisible vp r2 (some t2) (some "below") = true := by
  have hv : checkVisible vp rect (some t) (some "visible") =
      checkVisible vp rect (some t) none := by
    have h1 : modeOrVisible (some "visible") = "visible" := by decide
    simp [checkVisible, h1]
  constructor
  · rw [hv, checkVisible_above, checkVisible_below, checkVisible_default]
    by_cases ha : rect.bottom - t < 0
    · have hb : ¬ (rect.top - viewHeight vp + t ≥ 0) := by
        intro hb
        have : rect.top - viewHeight vp + t ≥ 0 := hb
        linarith
      left
      simp [ha, hb]
    · by_cases hb : rect.top - viewHeight vp + t ≥ 0
      · right; left
        simp [ha, hb]
      · right; right
        simp [ha, hb]
  · refine ⟨max (viewHeight vp) 0 + 1, ⟨viewHeight vp - (max (viewHeight vp) 0 + 1),
      viewHeight vp - (max (viewHeight vp) 0 + 1)⟩, ?_, le_refl _, ?_, ?_⟩
    · have h1 : viewHeight vp ≤ max (viewHeight vp) 0 := le_max_left _ _
      have h2 : (0 : α) ≤ max (viewHeight vp) 0 := le_max_right _ _
      show viewHeight vp < 2 * (max (viewHeight vp) 0 + 1)
      linarith
    · rw [checkVisible_above]
      have h1 : viewHeight vp ≤ max (viewHeight vp) 0 := le_max_left _ _
      have h2 : (0 : α) ≤ max (viewHeight vp) 0 := le_max_right _ _
      simp only [decide_eq_true_eq]
      linarith
    · rw [checkVisible_below]
      simp only [decide_eq_true_eq, ge_iff_le]
      have h3 : viewHeight vp - (max (viewHeight vp) 0 + 1) - viewHeight vp +
          (max (viewHeight vp) 0 + 1) = 0 := by ring
      exact le_of_eq h3.symm

theorem checkVisible_modes_partition_witness :
    (⟨100, 200⟩ : DOMRect ℤ).top ≤ (⟨100, 200⟩ : DOMRect ℤ).bottom ∧
    2 * (300 : ℤ) ≤ viewHeight (⟨800, 760⟩ : Viewport ℤ) ∧
    (((checkVisible (⟨800, 760⟩ : Viewport ℤ) ⟨100, 200⟩ (some 300) (some "above") = true ∧
        checkVisible (⟨800, 760⟩ : Viewport ℤ) ⟨100, 200⟩ (some 300) (some "below") = false ∧
        checkVisible (⟨800, 760⟩ : Viewport ℤ) ⟨100, 200⟩ (some 300) (some "visible") = false) ∨
      (checkVisible (⟨800, 760⟩ : Viewport ℤ) ⟨100, 200⟩ (some 300) (some "above") = false ∧
        checkVisible (⟨800, 760⟩ : Viewport ℤ) ⟨100, 200⟩ (some 300) (some "below") = true ∧
        checkVisible (⟨800, 760⟩ : Viewport ℤ) ⟨100, 200⟩ (some 300) (some "visible") = false) ∨
      (checkVisible (⟨800, 760⟩ : Viewport ℤ) ⟨100, 200⟩ (some 300) (some "above") = false ∧
        checkVisible (⟨800, 760⟩ : Viewport ℤ) ⟨100, 200⟩ (some 300) (some "below") = false ∧
        checkVisible (⟨800, 760⟩ : Viewport ℤ) ⟨100, 200⟩ (some 300) (some "visible") = true)) ∧
    ∃ (t2 : ℤ) (r2 : DOMRect ℤ), 2 * t2 > viewHeight (⟨800, 760⟩ : Viewport ℤ) ∧
      r2.top ≤ r2.bottom ∧
      checkVisible (⟨800, 760⟩ : Viewport ℤ) r2 (some t2) (some "above") = true ∧
      checkVisible (⟨800, 760⟩ : Viewport ℤ) r2 (some t2) (some "below") = true) :=
  ⟨by decide, by decide,
    checkVisible_modes_partition (⟨800, 760⟩ : Viewport ℤ) ⟨100, 200⟩ 300
      (by decide) (by decide)⟩

/-! ### The binary64 function and the exact one

Where no operation rounds, the binary64 function returns what the exact one
returns on the denoted rationals. -/

theorem Binary64.toRat_mantAt (a : Binary64) (e : Int) (h : e ≤ a.exp) :
    ((a.mantAt e : Int) : ℚ) * (2 : ℚ) ^ e = a.toRat := by
  unfold Binary64.mantAt Binary64.toRat
  have h0 : (0 : Int) ≤ a.exp - e := sub_nonneg.mpr h
  have h2 : ((2 : ℚ) ^ (a.exp - e).toNat) = (2 : ℚ) ^ (a.exp - e) := by
    rw [← zpow_natCast, Int.toNat_of_nonneg h0]
  push_cast
  rw [h2, mul_assoc, ← zpow_add₀ (two_ne_zero), sub_add_cancel]

theorem toRat_roundNearestEven_of_fits (m e : Int) (h : bitLength m.natAbs ≤ 53) :
    (roundNearestEven m e).toRat = (m : ℚ) * (2 : ℚ) ^ e := by
  unfold roundNearestEven
  simp only [if_pos h]
  rfl

theorem Binary64.toRat_sub (a b : Binary64) (h : a.subExact b = true) :
    (a.sub b).toRat = a.toRat - b.toRat := by
  unfold Binary64.subExact at h
  unfold Binary64.sub
  simp only
  rw [toRat_roundNearestEven_of_fits _ _ (by simpa using h)]
  push_cast
  rw [sub_mul, Binary64.toRat_mantAt a _ (min_le_left _ _),
    Binary64.toRat_mantAt b _ (min_le_right _ _)]

theorem Binary64.toRat_add (a b : Binary64) (h : a.addExact b = true) :
    (a.add b).toRat = a.toRat + b.toRat := by
  unfold Binary64.addExact at h
  unfold Binary64.add
  simp only
  rw [toRat_roundNearestEven_of_fits _ _ (by simpa using h)]
  push_cast
  rw [add_mul, Binary64.toRat_mantAt a _ (min_le_left _ _),
    Binary64.toRat_mantAt b _ (min_le_right _ _)]

theorem Binary64.toRat_neg_iff (a : Binary64) : a.toRat < 0 ↔ a.mant < 0 := by
  unfold Binary64.toRat
  have hp : (0 : ℚ) < (2 : ℚ) ^ a.exp := zpow_pos (by norm_num) _
  rw [mul_neg_iff]
  constructor
  · rintro (⟨_, h2⟩ | ⟨h1, _⟩)
    · exact absurd hp (not_lt.mpr h2.le)
    · exact_mod_cast h1
  · intro h
    exact Or.inr ⟨by exact_mod_cast h, hp⟩

theorem toRat_max_binary64 (a b : Binary64) :
    (Binary64.max a b).toRat = max a.toRat b.toRat := by
  have ha := Binary64.toRat_mantAt a _ (min_le_left a.exp b.exp)
  have hb := Binary64.toRat_mantAt b _ (min_le_right a.exp b.exp)
  have hp : (0 : ℚ) < (2 : ℚ) ^ (min a.exp b.exp) := zpow_pos (by norm_num) _
  unfold Binary64.max
  simp only
  split_ifs with h
  · have hq : ((a.mantAt (min a.exp b.exp) : Int) : ℚ) <
        ((b.mantAt (min a.exp b.exp) : Int) : ℚ) := by exact_mod_cast h
    have hlt : a.toRat < b.toRat := by
      rw [← ha, ← hb]
      exact mul_lt_mul_of_pos_right hq hp
    rw [max_eq_right hlt.le]
  · have hq : ((b.mantAt (min a.exp b.exp) : Int) : ℚ) ≤
        ((a.mantAt (min a.exp b.exp) : Int) : ℚ) := by exact_mod_cast not_lt.mp h
    have hle : b.toRat ≤ a.toRat := by
      rw [← ha, ← hb]
      exact mul_le_mul_of_nonneg_right hq hp.le
    rw [max_eq_left hle]

theorem toRat_thresholdOrZeroBinary64 (threshold : Option Binary64) :
    (thresholdOrZeroBinary64 threshold).toRat = thresholdOrZero (threshold.map Binary64.toRat) := by
  cases threshold with
  | none => simp [thresholdOrZeroBinary64, Binary64.toRat]
  | some t =>
    simp only [Option.map_some', thresholdOrZero_some, thresholdOrZeroBinary64]
    split_ifs with h
    · simp [Binary64.toRat, h]
    · rfl

/-- When the three arithmetic operations of `checkVisible` are computed without
rounding, the binary64 function agrees with the exact one on the denoted
rationals. -/
theorem checkVisibleBinary64_eq_of_exact (vp : Viewport Binary64) (rect : DOMRect Binary64)
    (threshold : Option Binary64) (mode : Option String)
    (h1 : rect.bottom.subExact (thresholdOrZeroBinary64 threshold) = true)
    (h2 : rect.top.subExact (Binary64.max vp.clientHeight vp.innerHeight) = true)
    (h3 : (rect.top.sub (Binary64.max vp.clientHeight vp.innerHeight)).addExact
      (thresholdOrZeroBinary64 threshold) = true) :
    checkVisibleBinary64 vp rect threshold mode =
      checkVisible (⟨vp.clientHeight.toRat, vp.innerHeight.toRat⟩ : Viewport ℚ)
        ⟨rect.top.toRat, rect.bottom.toRat⟩ (threshold.map Binary64.toRat) mode := by
  have ha : (rect.bottom.sub (thresholdOrZeroBinary64 threshold)).ltZero =
      decide (rect.bottom.toRat - thresholdOrZero (threshold.map Binary64.toRat) < 0) := by
    rw [← toRat_thresholdOrZeroBinary64, ← Binary64.toRat_sub _ _ h1]
    unfold Binary64.ltZero
    rw [decide_eq_decide, Binary64.toRat_neg_iff]
  have hb : ((rect.top.sub (Binary64.max vp.clientHeight vp.innerHeight)).add
      (thresholdOrZeroBinary64 threshold)).geZero =
      decide (rect.top.toRat - max vp.clientHeight.toRat vp.innerHeight.toRat +
        thresholdOrZero (threshold.map Binary64.toRat) ≥ 0) := by
    rw [← toRat_thresholdOrZeroBinary64, ← toRat_max_binary64, ← Binary64.toRat_sub _ _ h2,
      ← Binary64.toRat_add _ _ h3]
    unfold Binary64.geZero
    rw [decide_eq_decide, ge_iff_le, ← not_lt, ← not_lt, Binary64.toRat_neg_iff]
  unfold checkVisibleBinary64 checkVisible viewHeight
  simp only [ha, hb]

/-- C10 as stated fails in binary64 arithmetic: with threshold 512, viewport
height 1024 and `top = bottom = 512 - 2 ^ (-44)` (so `top <= bottom` and
`2 * threshold <= viewHeight`), `bottom - threshold` is `-(2 ^ (-44))`, so the
rectangle is above, while `top - viewHeight` rounds to `-512`, so
`top - viewHeight + threshold` is `0` and the rectangle is below as well. -/
theorem checkVisible_modes_binary64_counterexample :
    Binary64.isDouble ⟨9007199254740991, -44⟩ = true ∧
    Binary64.isDouble ⟨1, 9⟩ = true ∧ Binary64.isDouble ⟨1, 10⟩ = true ∧
    Binary64.toRat ⟨9007199254740991, -44⟩ = 512 - 1 / 2 ^ 44 ∧
    Binary64.toRat ⟨1, 9⟩ = 512 ∧ Binary64.toRat ⟨1, 10⟩ = 1024 ∧
    Binary64.toRat ⟨9007199254740991, -44⟩ ≤ Binary64.toRat ⟨9007199254740991, -44⟩ ∧
    2 * Binary64.toRat ⟨1, 9⟩ ≤
      Binary64.toRat (Binary64.max (⟨1, 10⟩ : Binary64) ⟨1, 10⟩) ∧
    Binary64.sub ⟨9007199254740991, -44⟩ ⟨1, 10⟩ = ⟨-4503599627370496, -43⟩ ∧
    Binary64.toRat ⟨-4503599627370496, -43⟩ = -512 ∧
    checkVisibleBinary64 ⟨⟨1, 10⟩, ⟨1, 10⟩⟩
      ⟨⟨9007199254740991, -44⟩, ⟨9007199254740991, -44⟩⟩ (some ⟨1, 9⟩) (some "above") = true ∧
    checkVisibleBinary64 ⟨⟨1, 10⟩, ⟨1, 10⟩⟩
      ⟨⟨9007199254740991, -44⟩, ⟨9007199254740991, -44⟩⟩ (some ⟨1, 9⟩) (some "below") = true ∧
    checkVisibleBinary64 ⟨⟨1, 10⟩, ⟨1, 10⟩⟩
      ⟨⟨9007199254740991, -44⟩, ⟨9007199254740991, -44⟩⟩ (some ⟨1, 9⟩) (some "visible") =
        false := by
  have hmax : Binary64.max (⟨1, 10⟩ : Binary64) ⟨1, 10⟩ = ⟨1, 10⟩ := by decide
  refine ⟨by decide, by decide, by decide, ?_, ?_, ?_, le_refl _, ?_, by decide, ?_,
    by decide, by decide, by decide⟩
  · norm_num [Binary64.toRat]
  · norm_num [Binary64.toRat]
  · norm_num [Binary64.toRat]
  · rw [hmax]
    norm_num [Binary64.toRat]
  · norm_num [Binary64.toRat]

end Visibility

/-! ## Facts about attributes and `addPath` -/

theorem hasAttribute_nil (m : String) : hasAttribute [] m = false := rfl

theorem hasAttribute_cons (kv : String × String) (rest : Attrs) (m : String) :
    hasAttribute (kv :: rest) m = (kv.1 == m || hasAttribute rest m) := rfl

theorem getAttribute_nil (m : String) : getAttribute [] m = none := rfl

theorem getAttribute_cons (kv : String × String) (rest : Attrs) (m : String) :
    getAttribute (kv :: rest) m = if kv.1 == m then some kv.2 else getAttribute rest m := by
  unfold getAttribute
  rw [List.find?_cons]
  cases h : kv.1 == m <;> simp

theorem removeAttribute_nil (n : String) : removeAttribute [] n = [] := rfl

theorem removeAttribute_cons (kv : String × String) (rest : Attrs) (n : String) :
    removeAttribute (kv :: rest) n =
      if kv.1 == n then removeAttribute rest n else kv :: removeAttribute rest n := by
  unfold removeAttribute
  rw [List.filter_cons]
  cases h : kv.1 == n <;> simp

/-- The attribute list with every value under `name` replaced: the first
branch of `setAttribute`. -/
theorem setAttribute_of_has (a : Attrs) (n v : String) (h : hasAttribute a n = true) :
    setAttribute a n v = a.map (fun kv => if kv.1 == n then (kv.1, v) else kv) := by
  unfold setAttribute
  rw [if_pos h]

theorem setAttribute_of_not_has (a : Attrs) (n v : String) (h : hasAttribute a n = false) :
    setAttribute a n v = a ++ [(n, v)] := by
  unfold setAttribute
  rw [if_neg (by simp [h])]

theorem hasAttribute_append (a b : Attrs) (m : String) :
    hasAttribute (a ++ b) m = (hasAttribute a m || hasAttribute b m) := by
  unfold hasAttribute
  rw [List.any_append]

theorem getAttribute_append_of_not_has (a b : Attrs) (m : String)
    (h : hasAttribute a m = false) : getAttribute (a ++ b) m = getAttribute b m := by
  induction a with
  | nil => rfl
  | cons kv rest ih =>
    rw [hasAttribute_cons, Bool.or_eq_false_iff] at h
    rw [List.cons_append, getAttribute_cons, h.1, ih h.2]
    rfl

theorem getAttribute_append_of_has (a b : Attrs) (m : String)
    (h : hasAttribute a m = true) : getAttribute (a ++ b) m = getAttribute a m := by
  induction a with
  | nil => rw [hasAttribute_nil] at h; cases h
  | cons kv rest ih =>
    rw [List.cons_append, getAttribute_cons, getAttribute_cons]
    cases hk : kv.1 == m
    · rw [hasAttribute_cons, hk, Bool.false_or] at h
      rw [if_neg (by simp), if_neg (by simp), ih h]
    · rfl

theorem hasAttribute_replace (a : Attrs) (n v m : String) :
    hasAttribute (a.map (fun kv => if kv.1 == n then (kv.1, v) else kv)) m =
      hasAttribute a m := by
  induction a with
  | nil => rfl
  | cons kv rest ih =>
    rw [List.map_cons, hasAttribute_cons, hasAttribute_cons, ih]
    cases hk : kv.1 == n <;> simp

theorem getAttribute_replace_ne (a : Attrs) (n v m : String) (h : m ≠ n) :
    getAttribute (a.map (fun kv => if kv.1 == n then (kv.1, v) else kv)) m =
      getAttribute a m := by
  induction a with
  | nil => rfl
  | cons kv rest ih =>
    rw [List.map_cons, getAttribute_cons, getAttribute_cons, ih]
    cases hk : kv.1 == n
    · simp
    · have h1 : kv.1 = n := by simpa using hk
      have h2 : ¬ (kv.1 = m) := fun h3 => h (h3.symm.trans h1)
      have h3 : (kv.1 == m) = false := by simpa using h2
      simp [h3]

theorem getAttribute_replace_self (a : Attrs) (n v : String) (h : hasAttribute a n = true) :
    getAttribute (a.map (fun kv => if kv.1 == n then (kv.1, v) else kv)) n = some v := by
  induction a with
  | nil => rw [hasAttribute_nil] at h; cases h
  | cons kv rest ih =>
    rw [List.map_cons, getAttribute_cons]
    cases hk : kv.1 == n
    · rw [hasAttribute_cons, hk, Bool.false_or] at h
      simp only [hk, Bool.false_eq_true, if_false]
      exact ih h
    · simp [hk]

theorem hasAttribute_removeAttribute_self (a : Attrs) (n : String) :
    hasAttribute (removeAttribute a n) n = false := by
  induction a with
  | nil => rfl
  | cons kv rest ih =>
    rw [removeAttribute_cons]
    cases hk : kv.1 == n
    · rw [if_neg (by simp), hasAttribute_cons, hk, ih]
      rfl
    · rw [if_pos rfl, ih]

theorem hasAttribute_removeAttribute_ne (a : Attrs) (n m : String) (h : m ≠ n) :
    hasAttribute (removeAttribute a n) m = hasAttribute a m := by
  induction a with
  | nil => rfl
  | cons kv rest ih =>
    rw [removeAttribute_cons, hasAttribute_cons]
    cases hk : kv.1 == n
    · rw [if_neg (by simp), hasAttribute_cons, ih]
    · have h1 : kv.1 = n := by simpa using hk
      have h2 : ¬ (kv.1 = m) := fun h3 => h (h3.symm.trans h1)
      have h3 : (kv.1 == m) = false := by simpa using h2
      rw [if_pos rfl, ih, h3, Bool.false_or]

theorem getAttribute_removeAttribute_ne (a : Attrs) (n m : String) (h : m ≠ n) :
    getAttribute (removeAttribute a n) m = getAttribute a m := by
  induction a with
  | nil => rfl
  | cons kv rest ih =>
    rw [removeAttribute_cons, getAttribute_cons]
    cases hk : kv.1 == n
    · rw [if_neg (by simp), getAttribute_cons, ih]
    · have h1 : kv.1 = n := by simpa using hk
      have h2 : ¬ (kv.1 = m) := fun h3 => h (h3.symm.trans h1)
      have h3 : (kv.1 == m) = false := by simpa using h2
      rw [if_pos rfl, ih, h3, if_neg (by simp)]

theorem removeAttribute_of_not_has (a : Attrs) (n : String) (h : hasAttribute a n = false) :
    removeAttribute a n = a := by
  induction a with
  | nil => rfl
  | cons kv rest ih =>
    rw [hasAttribute_cons, Bool.or_eq_false_iff] at h
    rw [removeAttribute_cons, h.1, if_neg (by simp), ih h.2]

theorem hasAttribute_setAttribute_ne (a : Attrs) (n v m : String) (h : m ≠ n) :
    hasAttribute (setAttribute a n v) m = hasAttribute a m := by
  cases hn : hasAttribute a n
  · rw [setAttribute_of_not_has a n v hn, hasAttribute_append, hasAttribute_cons,
      hasAttribute_nil]
    have h3 : (n == m) = false := by simpa using fun h5 : n = m => h h5.symm
    simp [h3]
  · rw [setAttribute_of_has a n v hn, hasAttribute_replace]

theorem getAttribute_setAttribute_ne (a : Attrs) (n v m : String) (h : m ≠ n) :
    getAttribute (setAttribute a n v) m = getAttribute a m := by
  cases hn : hasAttribute a n
  · rw [setAttribute_of_not_has a n v hn]
    have h3 : (n == m) = false := by simpa using fun h5 : n = m => h h5.symm
    cases hm : hasAttribute a m
    · rw [getAttribute_append_of_not_has a _ m hm, getAttribute_cons, h3]
      clear hn
      induction a with
      | nil => rfl
      | cons kv rest ih =>
        rw [hasAttribute_cons, Bool.or_eq_false_iff] at hm
        rw [getAttribute_cons, hm.1, ← ih hm.2]
        rfl
    · rw [getAttribute_append_of_has a _ m hm]
  · rw [setAttribute_of_has a n v hn, getAttribute_replace_ne a n v m h]

theorem getAttribute_setAttribute_self (a : Attrs) (n v : String) :
    getAttribute (setAttribute a n v) n = some v := by
  cases hn : hasAttribute a n
  · rw [setAttribute_of_not_has a n v hn, getAttribute_append_of_not_has a _ n hn,
      getAttribute_cons]
    simp
  · rw [setAttribute_of_has a n v hn, getAttribute_replace_self a n v hn]

theorem getAttribute_of_has (a : Attrs) (n : String) (h : hasAttribute a n = true) :
    ∃ v, getAttribute a n = some v := by
  induction a with
  | nil => rw [hasAttribute_nil] at h; cases h
  | cons kv rest ih =>
    rw [getAttribute_cons]
    cases hk : kv.1 == n
    · rw [hasAttribute_cons, hk, Bool.false_or] at h
      obtain ⟨v, hv⟩ := ih h
      exact ⟨v, by simp [hv]⟩
    · exact ⟨kv.2, by simp⟩

/-- When `data-src` is present, `addPath` copies it to `src`, deletes it and
leaves every other attribute and the class list as they were. -/
theorem addPath_of_data_src (e : Element) (h : hasAttribute e.attrs "data-src" = true) :
    getAttribute (addPath e).attrs "src" = getAttribute e.attrs "data-src" ∧
    hasAttribute (addPath e).attrs "data-src" = false ∧
    (addPath e).classList = e.classList ∧
    ∀ m, m ≠ "src" → m ≠ "data-src" →
      getAttribute (addPath e).attrs m = getAttribute e.attrs m := by
  obtain ⟨v, hv⟩ := getAttribute_of_has e.attrs "data-src" h
  have hne : ("src" : String) ≠ "data-src" := by decide
  have ha : addPath e =
      { e with attrs := removeAttribute (setAttribute e.attrs "src" v) "data-src" } := by
    unfold addPath
    rw [if_pos h, hv]
    rfl
  rw [ha]
  refine ⟨?_, hasAttribute_removeAttribute_self _ _, rfl, ?_⟩
  · show getAttribute (removeAttribute (setAttribute e.attrs "src" v) "data-src") "src" = _
    rw [getAttribute_removeAttribute_ne _ _ _ hne, getAttribute_setAttribute_self, hv]
  · intro m h1 h2
    show getAttribute (removeAttribute (setAttribute e.attrs "src" v) "data-src") m = _
    rw [getAttribute_removeAttribute_ne _ _ _ h2, getAttribute_setAttribute_ne _ _ _ _ h1]

/-- When `data-srcset` is present and `data-src` is not, `addPath` copies it to
`srcset`, deletes it and leaves every other attribute as it was. -/
theorem addPath_of_data_srcset_only (e : Element)
    (h0 : hasAttribute e.attrs "data-src" = false)
    (h : hasAttribute e.attrs "data-srcset" = true) :
    getAttribute (addPath e).attrs "srcset" = getAttribute e.attrs "data-srcset" ∧
    hasAttribute (addPath e).attrs "data-srcset" = false ∧
    (addPath e).classList = e.classList ∧
    ∀ m, m ≠ "srcset" → m ≠ "data-srcset" →
      getAttribute (addPath e).attrs m = getAttribute e.attrs m := by
  obtain ⟨v, hv⟩ := getAttribute_of_has e.attrs "data-srcset" h
  have hne : ("srcset" : String) ≠ "data-srcset" := by decide
  have ha : addPath e =
      { e with attrs := removeAttribute (setAttribute e.attrs "srcset" v) "data-srcset" } := by
    unfold addPath
    rw [if_neg (by simp [h0]), if_pos h, hv]
    rfl
  rw [ha]
  refine ⟨?_, hasAttribute_removeAttribute_self _ _, rfl, ?_⟩
  · show getAttribute (removeAttribute (setAttribute e.attrs "srcset" v) "data-srcset")
      "srcset" = _
    rw [getAttribute_removeAttribute_ne _ _ _ hne, getAttribute_setAttribute_self, hv]
  · intro m h1 h2
    show getAttribute (removeAttribute (setAttribute e.attrs "srcset" v) "data-srcset") m = _
    rw [getAttribute_removeAttribute_ne _ _ _ h2, getAttribute_setAttribute_ne _ _ _ _ h1]

/-- Without a pending attribute `addPath` does nothing. -/
theorem addPath_of_neither (e : Element)
    (h0 : hasAttribute e.attrs "data-src" = false)
    (h1 : hasAttribute e.attrs "data-srcset" = false) : addPath e = e := by
  unfold addPath
  rw [if_neg (by simp [h0]), if_neg (by simp [h1])]

/-- The branch of `addPath` taken for `data-src` leaves the presence of
`data-srcset` as it was. -/
theorem hasAttribute_data_srcset_addPath (e : Element)
    (h : hasAttribute e.attrs "data-src" = true) :
    hasAttribute (addPath e).attrs "data-srcset" = hasAttribute e.attrs "data-srcset" := by
  have h1 : ("data-srcset" : String) ≠ "data-src" := by decide
  have h2 : ("data-srcset" : String) ≠ "src" := by decide
  unfold addPath
  rw [if_pos h]
  show hasAttribute (removeAttribute (setAttribute e.attrs "src" _) "data-src")
    "data-srcset" = _
  rw [hasAttribute_removeAttribute_ne _ _ _ h1, hasAttribute_setAttribute_ne _ _ _ _ h2]

/-- The branch of `addPath` taken for `data-srcset` does not create
`data-src`. -/
theorem hasAttribute_data_src_addPath (e : Element)
    (h0 : hasAttribute e.attrs "data-src" = false)
    (h : hasAttribute e.attrs "data-srcset" = true) :
    hasAttribute (addPath e).attrs "data-src" = false := by
  have h1 : ("data-src" : String) ≠ "data-srcset" := by decide
  have h2 : ("data-src" : String) ≠ "srcset" := by decide
  unfold addPath
  rw [if_neg (by simp [h0]), if_pos h]
  show hasAttribute (removeAttribute (setAttribute e.attrs "srcset" _) "data-srcset")
    "data-src" = _
  rw [hasAttribute_removeAttribute_ne _ _ _ h1, hasAttribute_setAttribute_ne _ _ _ _ h2, h0]

/-- On an element that does not carry both pending attributes, a second
`addPath` changes nothing. -/
theorem addPath_idempotent_of_not_both (e : Element)
    (h : ¬ (hasAttribute e.attrs "data-src" = true ∧
        hasAttribute e.attrs "data-srcset" = true)) :
    addPath (addPath e) = addPath e := by
  cases h0 : hasAttribute e.attrs "data-src"
  · cases h1 : hasAttribute e.attrs "data-srcset"
    · rw [addPath_of_neither e h0 h1, addPath_of_neither e h0 h1]
    · exact addPath_of_neither _ (hasAttribute_data_src_addPath e h0 h1)
        (addPath_of_data_srcset_only e h0 h1).2.1
  · have h1 : hasAttribute e.attrs "data-srcset" = false := by
      cases h2 : hasAttribute e.attrs "data-srcset"
      · rfl
      · exact absurd ⟨h0, h2⟩ h
    refine addPath_of_neither _ (addPath_of_data_src e h0).2.1 ?_
    rw [hasAttribute_data_srcset_addPath e h0, h1]

/-- C3 (failing input): on an element that carries both `data-src` and
`data-srcset`, the first `addPath` resolves only `data-src` and the second one
then resolves `data-srcset`, so two calls do not leave the attributes that one
call leaves. -/
theorem addPath_twice_differs_on_both :
    addPath ⟨[], [("data-src", "a.png"), ("data-srcset", "a-2x.png")]⟩ =
      ⟨[], [("data-srcset", "a-2x.png"), ("src", "a.png")]⟩ ∧
    addPath (addPath ⟨[], [("data-src", "a.png"), ("data-srcset", "a-2x.png")]⟩) =
      ⟨[], [("src", "a.png"), ("srcset", "a-2x.png")]⟩ ∧
    addPath (addPath ⟨[], [("data-src", "a.png"), ("data-srcset", "a-2x.png")]⟩) ≠
      addPath ⟨[], [("data-src", "a.png"), ("data-srcset", "a-2x.png")]⟩ := by
  decide

/-! ## Facts about class lists and the reveal listener -/

theorem containsToken_removeToken_self (cl : ClassList) (c : String) :
    (cl.removeToken c).containsToken c = false := by
  induction cl with
  | nil => rfl
  | cons x rest ih =>
    unfold ClassList.removeToken ClassList.containsToken at ih ⊢
    rw [List.filter_cons]
    cases hx : x == c
    · rw [if_pos (by simp), List.any_cons, hx, ih]
      rfl
    · rw [if_neg (by simp), ih]

theorem containsToken_removeToken_ne (cl : ClassList) (c x : String) (h : x ≠ c) :
    (cl.removeToken c).containsToken x = cl.containsToken x := by
  induction cl with
  | nil => rfl
  | cons y rest ih =>
    unfold ClassList.removeToken ClassList.containsToken at ih ⊢
    rw [List.filter_cons, List.any_cons]
    cases hy : y == c
    · rw [if_pos (by simp), List.any_cons, ih]
    · have h1 : y = c := by simpa using hy
      have h2 : (y == x) = false := by simpa using fun h3 : y = x => h (h3.symm.trans h1)
      rw [if_neg (by simp), ih, h2, Bool.false_or]

theorem containsToken_of_removeToken (cl : ClassList) (c x : String)
    (h : (cl.removeToken c).containsToken x = true) : cl.containsToken x = true := by
  by_cases hx : x = c
  · rw [hx, containsToken_removeToken_self] at h
    cases h
  · rwa [containsToken_removeToken_ne cl c x hx] at h

theorem containsToken_append (a b : ClassList) (x : String) :
    ClassList.containsToken (a ++ b) x = (a.containsToken x || b.containsToken x) := by
  unfold ClassList.containsToken
  rw [List.any_append]

theorem validateToken_of_valid (c : String) (h : validateToken c = Except.ok ()) :
    ∀ cl : ClassList, cl.add c = Except.ok (if cl.containsToken c then cl else cl ++ [c]) := by
  intro cl
  unfold ClassList.add
  rw [h]

theorem containsToken_add_self (cl cl2 : ClassList) (c : String)
    (h : cl.add c = Except.ok cl2) : cl2.containsToken c = true := by
  unfold ClassList.add at h
  cases hv : validateToken c with
  | error e => rw [hv] at h; cases h
  | ok u =>
    rw [hv] at h
    simp only [Except.ok.injEq] at h
    rw [← h]
    cases hc : cl.containsToken c
    · rw [if_neg (by simp), containsToken_append]
      simp [ClassList.containsToken]
    · rw [if_pos rfl, hc]

theorem containsToken_add_ne (cl cl2 : ClassList) (c x : String)
    (h : cl.add c = Except.ok cl2) (hx : x ≠ c) :
    cl2.containsToken x = cl.containsToken x := by
  unfold ClassList.add at h
  cases hv : validateToken c with
  | error e => rw [hv] at h; cases h
  | ok u =>
    rw [hv] at h
    simp only [Except.ok.injEq] at h
    rw [← h]
    cases hc : cl.containsToken c
    · rw [if_neg (by simp), containsToken_append]
      have h2 : (c == x) = false := by simpa using fun h3 : c = x => hx h3.symm
      simp [ClassList.containsToken, h2]
    · rw [if_pos rfl]

/-- What the reveal listener does on the code as written: the container loses
`lazy` and keeps its other classes, its rectangle and its listener; a child
carrying `data-src` gets it moved to `src`; a child carrying `data-srcset` but
not `data-src` gets it moved to `srcset`; a child carrying neither is
unchanged. -/
theorem onLazyLoad_effect {α : Type} (el : Container α) :
    (onLazyLoad el).classList.containsToken "lazy" = false ∧
    (∀ x, x ≠ "lazy" →
      (onLazyLoad el).classList.containsToken x = el.classList.containsToken x) ∧
    (onLazyLoad el).rect = el.rect ∧ (onLazyLoad el).listener = el.listener ∧
    (onLazyLoad el).children.length = el.children.length ∧
    ∀ (k : Nat) (c : Element), el.children[k]? = some c →
      ∃ c2 : Element, (onLazyLoad el).children[k]? = some c2 ∧
        (hasAttribute c.attrs "data-src" = true →
          getAttribute c2.attrs "src" = getAttribute c.attrs "data-src" ∧
          hasAttribute c2.attrs "data-src" = false) ∧
        (hasAttribute c.attrs "data-src" = false →
          hasAttribute c.attrs "data-srcset" = true →
          getAttribute c2.attrs "srcset" = getAttribute c.attrs "data-srcset" ∧
          hasAttribute c2.attrs "data-srcset" = false) ∧
        (hasAttribute c.attrs "data-src" = false →
          hasAttribute c.attrs "data-srcset" = false → c2 = c) := by
  refine ⟨containsToken_removeToken_self _ _,
    fun x hx => containsToken_removeToken_ne _ _ x hx, rfl, rfl, ?_, ?_⟩
  · simp [onLazyLoad]
  · intro k c hc
    refine ⟨resolveChild c, ?_, ?_, ?_, ?_⟩
    · simp [onLazyLoad, hc]
    · intro h
      have hr : resolveChild c = addPath c := by
        unfold resolveChild
        rw [if_pos (by simp [h])]
      rw [hr]
      exact ⟨(addPath_of_data_src c h).1, (addPath_of_data_src c h).2.1⟩
    · intro h0 h
      have hr : resolveChild c = addPath c := by
        unfold resolveChild
        rw [if_pos (by simp [h])]
      rw [hr]
      exact ⟨(addPath_of_data_srcset_only c h0 h).1, (addPath_of_data_srcset_only c h0 h).2.1⟩
    · intro h0 h1
      unfold resolveChild
      rw [if_neg (by simp [h0, h1])]

/-- C2 (failing input): a child that carries both `data-src` and `data-srcset`
leaves the listener with `data-srcset` still pending and no `srcset`, while the
container has already lost `lazy`. -/
theorem onLazyLoad_both_pending_keeps_data_srcset :
    (onLazyLoad (⟨["lazy"], ⟨100, 200⟩, true,
        [⟨[], [("data-src", "a.png"), ("data-srcset", "a-2x.png")]⟩]⟩ : Container ℤ)) =
      ⟨[], ⟨100, 200⟩, true, [⟨[], [("data-srcset", "a-2x.png"), ("src", "a.png")]⟩]⟩ ∧
    hasAttribute [("data-srcset", "a-2x.png"), ("src", "a.png")] "data-srcset" = true ∧
    getAttribute [("data-srcset", "a-2x.png"), ("src", "a.png")] "srcset" = none := by
  decide

/-! ## The evaluation pass -/

theorem nodup_querySelectorAllLazy {α : Type} (doc : Document α) : (querySelectorAllLazy doc).Nodup :=
  (List.nodup_range _).filter _

theorem mem_querySelectorAllLazy {α : Type} (doc : Document α) (j : Nat) :
    j ∈ querySelectorAllLazy doc ↔ isLazy doc j = true := by
  unfold querySelectorAllLazy
  rw [List.mem_filter, List.mem_range]
  constructor
  · exact fun h => h.2
  · intro h
    refine ⟨?_, h⟩
    by_contra hge
    unfold isLazy at h
    rw [List.getElem?_eq_none (not_lt.mp hge)] at h
    cases h

theorem relayout_getElem? {α : Type} (g : Nat → DOMRect α) (doc : Document α) (j : Nat) :
    (relayout g doc)[j]? = (doc[j]?).map (fun el => { el with rect := g j }) := by
  unfold relayout
  rw [List.getElem?_mapIdx]

theorem isLazy_relayout {α : Type} (g : Nat → DOMRect α) (doc : Document α) (j : Nat) :
    isLazy (relayout g doc) j = isLazy doc j := by
  unfold isLazy
  rw [relayout_getElem?]
  cases doc[j]? <;> rfl

section Pass

variable {α : Type} [LinearOrderedCommRing α]

/-- One iteration touches only position `i`. -/
theorem lazyLoadStep_getElem? (vp : Viewport α) (d : Document α) (log : List Nat)
    (i j : Nat) :
    (lazyLoadStep vp (d, log) i).1[j]? =
      if j = i then (d[j]?).map (lazyLoadVisit vp) else d[j]? := by
  unfold lazyLoadStep
  cases hd : d[i]? with
  | none =>
    by_cases hj : j = i
    · subst hj
      simp [hd]
    · simp [hj]
  | some el =>
    simp only
    cases hv : checkVisible vp el.rect (some (-500)) none
    · by_cases hj : j = i
      · subst hj
        simp [hd, lazyLoadVisit, hv]
      · simp [hj]
    · simp only [if_true]
      by_cases hj : j = i
      · subst hj
        have hlt : j < d.length := by
          by_contra hge
          rw [List.getElem?_eq_none (not_lt.mp hge)] at hd
          cases hd
        rw [List.getElem?_set, if_pos rfl, if_pos hlt, if_pos rfl, hd]
        simp [lazyLoadVisit, hv]
      · rw [List.getElem?_set_ne (fun h => hj h.symm), if_neg hj]

/-- One iteration logs position `i` exactly when the test holds there. -/
theorem lazyLoadStep_log (vp : Viewport α) (d : Document α) (log : List Nat) (i : Nat) :
    (lazyLoadStep vp (d, log) i).2 = log ++ (if visibleAt vp d i then [i] else []) := by
  unfold lazyLoadStep visibleAt
  cases hd : d[i]? with
  | none => simp
  | some el =>
    simp only
    by_cases hv : checkVisible vp el.rect (some (-500)) none = true
    · simp [hv]
    · simp [hv]

/-- The listener leaves the rectangle alone, so the test at a position is not
affected by what the pass does to the container there. -/
theorem rect_lazyLoadVisit (vp : Viewport α) (el : Container α) :
    (lazyLoadVisit vp el).rect = el.rect := by
  unfold lazyLoadVisit dispatchEvent onLazyLoad
  split_ifs <;> rfl

theorem visibleAt_lazyLoadStep (vp : Viewport α) (d : Document α) (log : List Nat)
    (i j : Nat) : visibleAt vp (lazyLoadStep vp (d, log) i).1 j = visibleAt vp d j := by
  unfold visibleAt
  rw [lazyLoadStep_getElem?]
  by_cases hj : j = i
  · rw [if_pos hj]
    cases d[j]? with
    | none => rfl
    | some el => simp [rect_lazyLoadVisit]
  · rw [if_neg hj]

/-- The whole loop over a duplicate-free list of positions: each listed position
is visited once, the others are untouched, and the log is the listed
positions that pass the test. -/
theorem foldl_lazyLoadStep (vp : Viewport α) (l : List Nat) (hnd : l.Nodup)
    (d : Document α) (log : List Nat) :
    (∀ j, (l.foldl (lazyLoadStep vp) (d, log)).1[j]? =
      if j ∈ l then (d[j]?).map (lazyLoadVisit vp) else d[j]?) ∧
    (l.foldl (lazyLoadStep vp) (d, log)).2 = log ++ l.filter (visibleAt vp d) := by
  induction l generalizing d log with
  | nil => simp
  | cons i rest ih =>
    obtain ⟨hi, hrest⟩ := List.nodup_cons.mp hnd
    rw [List.foldl_cons]
    obtain ⟨ih1, ih2⟩ := ih hrest (lazyLoadStep vp (d, log) i).1 (lazyLoadStep vp (d, log) i).2
    constructor
    · intro j
      rw [ih1 j, lazyLoadStep_getElem?]
      by_cases hj : j = i
      · subst hj
        rw [if_neg hi, if_pos rfl, if_pos (List.mem_cons_self _ _)]
      · rw [if_neg hj]
        by_cases hm : j ∈ rest
        · rw [if_pos hm, if_pos (List.mem_cons_of_mem _ hm)]
        · rw [if_neg hm, if_neg (fun h => (List.mem_cons.mp h).elim hj hm)]
    · rw [ih2, lazyLoadStep_log, List.filter_cons]
      have hc : rest.filter (visibleAt vp (lazyLoadStep vp (d, log) i).1) =
          rest.filter (visibleAt vp d) :=
        List.filter_congr (fun j _ => visibleAt_lazyLoadStep vp d log i j)
      rw [hc]
      cases visibleAt vp d i <;> simp

/-- The page after a pass, position by position. -/
theorem lazyLoad_getElem? (vp : Viewport α) (doc : Document α) (j : Nat) :
    (lazyLoad vp doc).1[j]? =
      if isLazy doc j then (doc[j]?).map (lazyLoadVisit vp) else doc[j]? := by
  unfold lazyLoad
  rw [(foldl_lazyLoadStep vp _ (nodup_querySelectorAllLazy doc) doc []).1 j]
  by_cases h : isLazy doc j = true
  · rw [if_pos ((mem_querySelectorAllLazy doc j).mpr h), if_pos h]
  · rw [if_neg (fun hm => h ((mem_querySelectorAllLazy doc j).mp hm)), if_neg h]

/-- The dispatch log of a pass: the positions that match `.lazy` and pass the
visibility test. -/
theorem mem_lazyLoad_log (vp : Viewport α) (doc : Document α) (j : Nat) :
    j ∈ (lazyLoad vp doc).2 ↔ isLazy doc j = true ∧ visibleAt vp doc j = true := by
  unfold lazyLoad
  rw [(foldl_lazyLoadStep vp _ (nodup_querySelectorAllLazy doc) doc []).2, List.nil_append,
    List.mem_filter, mem_querySelectorAllLazy]

/-- A container that does not match `.lazy` is skipped by the pass. -/
theorem lazyLoad_of_not_lazy (vp : Viewport α) (doc : Document α) (j : Nat)
    (h : isLazy doc j = false) :
    (lazyLoad vp doc).1[j]? = doc[j]? ∧ j ∉ (lazyLoad vp doc).2 := by
  constructor
  · rw [lazyLoad_getElem?, h]
    rfl
  · rw [mem_lazyLoad_log, h]
    simp

/-- A pass never adds the class `lazy`. -/
theorem isLazy_of_isLazy_lazyLoad (vp : Viewport α) (doc : Document α) (j : Nat)
    (h : isLazy (lazyLoad vp doc).1 j = true) : isLazy doc j = true := by
  by_contra hn
  have hf : isLazy doc j = false := by simpa using hn
  have h1 := (lazyLoad_of_not_lazy vp doc j hf).1
  unfold isLazy at h hf
  rw [h1] at h
  rw [hf] at h
  cases h

/-- A container without the class `lazy` is not reached by any later sequence
of `scroll` events: no dispatch, same children, still without the class. -/
theorem onScrolls_of_not_lazy (evs : List (Viewport α × (Nat → DOMRect α)))
    (doc : Document α) (j : Nat) (h : isLazy doc j = false) :
    j ∉ (onScrolls evs doc).2 ∧
    ((onScrolls evs doc).1[j]?).map Container.children = (doc[j]?).map Container.children ∧
    ((onScrolls evs doc).1[j]?).map Container.classList =
      (doc[j]?).map Container.classList ∧
    isLazy (onScrolls evs doc).1 j = false := by
  induction evs generalizing doc with
  | nil => exact ⟨by simp [onScrolls], rfl, rfl, h⟩
  | cons ev rest ih =>
    have hr : isLazy (relayout ev.2 doc) j = false := by rw [isLazy_relayout, h]
    obtain ⟨h1, h2⟩ := lazyLoad_of_not_lazy ev.1 (relayout ev.2 doc) j hr
    have h3 : isLazy (onScroll ev doc).1 j = false := by
      unfold onScroll isLazy
      rw [h1]
      exact hr
    obtain ⟨i1, i2, i3, i4⟩ := ih (onScroll ev doc).1 h3
    have h5 : (onScroll ev doc).1[j]? =
        (doc[j]?).map (fun el => { el with rect := ev.2 j }) := by
      unfold onScroll
      rw [h1, relayout_getElem?]
    refine ⟨?_, ?_, ?_, ?_⟩
    · show j ∉ (onScroll ev doc).2 ++ (onScrolls rest (onScroll ev doc).1).2
      rw [List.mem_append]
      rintro (hm | hm)
      · exact h2 hm
      · exact i1 hm
    · show ((onScrolls rest (onScroll ev doc).1).1[j]?).map Container.children = _
      rw [i2, h5]
      cases doc[j]? <;> rfl
    · show ((onScrolls rest (onScroll ev doc).1).1[j]?).map Container.classList = _
      rw [i3, h5]
      cases doc[j]? <;> rfl
    · exact i4

/-- The frame of a pass: the event is dispatched exactly to the containers that
match `.lazy` and pass `checkVisible(el, -500)`.  A container matching `.lazy`
with the listener registered that fails the test is left as it is, one that
passes it is replaced by the result of the listener (see `onLazyLoad_effect`
for what that does to each child), and a container not matching `.lazy` is
left as it is.  The two scenarios of the specification are evaluated: viewport
height 800 and a child carrying only `data-src="a.png"`; at top 100, bottom 200
the child ends with `src="a.png"` and no `data-src`; at top 2000, bottom 2100
nothing changes. -/
theorem lazyLoad_frame (vp : Viewport α) (doc : Document α)
    (i : Nat) (el : Container α) (hi : doc[i]? = some el)
    (hlazy : el.classList.containsToken "lazy" = true) (hreg : el.listener = true) :
    (checkVisible vp el.rect (some (-500)) none = false →
      (lazyLoad vp doc).1[i]? = some el ∧ i ∉ (lazyLoad vp doc).2) ∧
    (checkVisible vp el.rect (some (-500)) none = true →
      (lazyLoad vp doc).1[i]? = some (onLazyLoad el) ∧ i ∈ (lazyLoad vp doc).2) ∧
    (∀ j : Nat, j ∈ (lazyLoad vp doc).2 ↔
      ∃ c : Container α, doc[j]? = some c ∧ c.classList.containsToken "lazy" = true ∧
        checkVisible vp c.rect (some (-500)) none = true) ∧
    (∀ (j : Nat) (c : Container α), doc[j]? = some c →
      c.classList.containsToken "lazy" = false → (lazyLoad vp doc).1[j]? = some c) ∧
    (lazyLoad (⟨800, 800⟩ : Viewport ℤ)
        [⟨["lazy"], ⟨100, 200⟩, true, [⟨[], [("data-src", "a.png")]⟩]⟩] =
      ([⟨[], ⟨100, 200⟩, true, [⟨[], [("src", "a.png")]⟩]⟩], [0])) ∧
    (checkVisible (⟨800, 800⟩ : Viewport ℤ) ⟨2000, 2100⟩ (some (-500)) none = false ∧
      lazyLoad (⟨800, 800⟩ : Viewport ℤ)
        [⟨["lazy"], ⟨2000, 2100⟩, true, [⟨[], [("data-src", "a.png")]⟩]⟩] =
      ([⟨["lazy"], ⟨2000, 2100⟩, true, [⟨[], [("data-src", "a.png")]⟩]⟩], [])) := by
  have hl : isLazy doc i = true := by
    unfold isLazy
    rw [hi]
    exact hlazy
  have hlog : ∀ j : Nat, j ∈ (lazyLoad vp doc).2 ↔
      ∃ c : Container α, doc[j]? = some c ∧ c.classList.containsToken "lazy" = true ∧
        checkVisible vp c.rect (some (-500)) none = true := by
    intro j
    rw [mem_lazyLoad_log]
    unfold isLazy visibleAt
    cases hj : doc[j]? with
    | none => simp
    | some c => simp
  refine ⟨?_, ?_, hlog, ?_, by decide, by decide, by decide⟩
  · intro hv
    constructor
    · rw [lazyLoad_getElem?, hl, if_pos rfl, hi]
      simp [lazyLoadVisit, hv]
    · rw [hlog]
      rintro ⟨c, hc, _, hcv⟩
      rw [hi] at hc
      cases hc
      rw [hv] at hcv
      cases hcv
  · intro hv
    constructor
    · rw [lazyLoad_getElem?, hl, if_pos rfl, hi]
      simp [lazyLoadVisit, hv, dispatchEvent, hreg]
    · rw [hlog]
      exact ⟨el, hi, hlazy, hv⟩
  · intro j c hj hc
    have hf : isLazy doc j = false := by
      unfold isLazy
      rw [hj]
      exact hc
    rw [(lazyLoad_of_not_lazy vp doc j hf).1, hj]

/-- C7 (failing input): a tracked container on screen (viewport height 800, top
100, bottom 200, listener registered) whose child carries both `data-src` and
`data-srcset`.  The pass finds it visible and dispatches the event, the
container loses `lazy`, and the child is left with `data-srcset` still pending
and no `srcset`: its children are not resolved. -/
theorem lazyLoad_visible_both_pending_unresolved :
    checkVisible (⟨800, 800⟩ : Viewport ℤ) ⟨100, 200⟩ (some (-500)) none = true ∧
    lazyLoad (⟨800, 800⟩ : Viewport ℤ)
        [⟨["lazy"], ⟨100, 200⟩, true,
          [⟨[], [("data-src", "a.png"), ("data-srcset", "a-2x.png")]⟩]⟩] =
      ([⟨[], ⟨100, 200⟩, true, [⟨[], [("data-srcset", "a-2x.png"), ("src", "a.png")]⟩]⟩],
        [0]) ∧
    hasAttribute [("data-srcset", "a-2x.png"), ("src", "a.png")] "data-srcset" = true ∧
    getAttribute [("data-srcset", "a-2x.png"), ("src", "a.png")] "srcset" = none := by
  decide

/-- C4: one-shot guarantee.  On a page where every container matching `.lazy`
has the listener registered, a container the pass dispatched the event to no
longer matches `.lazy`; no later sequence of `scroll` events, whatever the
viewport and rectangles at those times, dispatches the event to it or changes
its children; and the positions matching `.lazy` after the pass are among
those matching before it. -/
theorem lazyLoad_one_shot (vp : Viewport α) (doc : Document α)
    (hreg : ∀ el ∈ doc, el.classList.containsToken "lazy" = true → el.listener = true)
    (i : Nat) (hi : i ∈ (lazyLoad vp doc).2) :
    isLazy (lazyLoad vp doc).1 i = false ∧
    (∀ evs : List (Viewport α × (Nat → DOMRect α)),
      i ∉ (onScrolls evs (lazyLoad vp doc).1).2 ∧
      ((onScrolls evs (lazyLoad vp doc).1).1[i]?).map Container.children =
        ((lazyLoad vp doc).1[i]?).map Container.children) ∧
    (∀ j, j ∈ querySelectorAllLazy (lazyLoad vp doc).1 → j ∈ querySelectorAllLazy doc) := by
  have hnl : isLazy (lazyLoad vp doc).1 i = false := by
    obtain ⟨hl, hv⟩ := (mem_lazyLoad_log vp doc i).mp hi
    have hg := lazyLoad_getElem? vp doc i
    rw [hl, if_pos rfl] at hg
    unfold isLazy at hl ⊢
    unfold visibleAt at hv
    rw [hg]
    cases hd : doc[i]? with
    | none => rfl
    | some el =>
      rw [hd] at hl hv
      have hmem : el ∈ doc := List.getElem?_mem hd
      have hlis : el.listener = true := hreg el hmem hl
      have hvis : lazyLoadVisit vp el = onLazyLoad el := by
        simp only at hv
        unfold lazyLoadVisit dispatchEvent
        rw [if_pos hv, if_pos hlis]
      show (lazyLoadVisit vp el).classList.containsToken "lazy" = false
      rw [hvis]
      exact containsToken_removeToken_self _ _
  refine ⟨hnl, ?_, ?_⟩
  · intro evs
    obtain ⟨h1, h2, _, _⟩ := onScrolls_of_not_lazy evs (lazyLoad vp doc).1 i hnl
    exact ⟨h1, h2⟩
  · intro j hj
    rw [mem_querySelectorAllLazy] at hj ⊢
    exact isLazy_of_isLazy_lazyLoad vp doc j hj

theorem lazyLoad_one_shot_witness :
    (∀ el ∈ samplePage, el.classList.containsToken "lazy" = true → el.listener = true) ∧
    0 ∈ (lazyLoad (⟨800, 800⟩ : Viewport ℤ) samplePage).2 ∧
    isLazy (lazyLoad (⟨800, 800⟩ : Viewport ℤ) samplePage).1 0 = false ∧
    (∀ evs : List (Viewport ℤ × (Nat → DOMRect ℤ)),
      0 ∉ (onScrolls evs (lazyLoad (⟨800, 800⟩ : Viewport ℤ) samplePage).1).2 ∧
      ((onScrolls evs (lazyLoad (⟨800, 800⟩ : Viewport ℤ) samplePage).1).1[0]?).map
          Container.children =
        ((lazyLoad (⟨800, 800⟩ : Viewport ℤ) samplePage).1[0]?).map Container.children) ∧
    (∀ j, j ∈ querySelectorAllLazy (lazyLoad (⟨800, 800⟩ : Viewport ℤ) samplePage).1 →
      j ∈ querySelectorAllLazy samplePage) :=
  ⟨by decide, by decide,
    lazyLoad_one_shot (⟨800, 800⟩ : Viewport ℤ) samplePage (by decide) 0 (by decide)⟩

end Pass

/-! ## Class toggle -/

/-- The children after `classToggle` when the target did not carry the class
and `classList.add` accepted it with result `cl`: the target gets `cl`, every
sibling gets the class removed. -/
theorem classToggle_getElem? (children : List Element) (target : Nat) (className : String)
    (t : Element) (ht : children[target]? = some t)
    (hc : t.classList.containsToken className = false)
    (cl : ClassList) (hadd : t.classList.add className = Except.ok cl) :
    ∃ r, classToggle children target className = Except.ok r ∧
      r.length = children.length ∧
      ∀ j : Nat, r[j]? =
        if j = target then some { t with classList := cl }
        else (children[j]?).map
          (fun c => { c with classList := c.classList.removeToken className }) := by
  have hlt : target < children.length := by
    by_contra hge
    rw [List.getElem?_eq_none (not_lt.mp hge)] at ht
    cases ht
  unfold classToggle
  rw [ht]
  simp only [hc, beq_self_eq_true, if_true, hadd]
  refine ⟨_, rfl, by simp, ?_⟩
  intro j
  rw [List.getElem?_mapIdx]
  by_cases hj : j = target
  · subst hj
    rw [List.getElem?_set, if_pos rfl, if_pos hlt, if_pos rfl]
    simp
  · rw [List.getElem?_set_ne (fun h => hj h.symm), if_neg hj]
    cases children[j]? with
    | none => rfl
    | some c => simp [hj]

/-- C9 as stated fails: the class name may be any string, and for the empty
string, which the second tab does not carry, `classList.add` throws, so the
call ends in a `SyntaxError` with nothing changed and the target does not
carry the class name afterwards.  A class name with a space ends in an
`InvalidCharacterError` likewise. -/
theorem classToggle_invalid_token_counterexample :
    sampleTabs[1]? = some ⟨["tab"], []⟩ ∧
    ClassList.containsToken ["tab"] "" = false ∧
    classToggle sampleTabs 1 "" = Except.error DOMException.SyntaxError ∧
    ClassList.containsToken ["tab"] "is active" = false ∧
    classToggle sampleTabs 1 "is active" = Except.error DOMException.InvalidCharacterError := by
  decide

/-- C9 (amended): for a class name that is a valid token (not empty, no ASCII
whitespace) and a target that does not carry it, `classToggle(target,
className)` completes, after it the target carries the class name, no other
child of the parent does, and on every child every other class and every
attribute is as before; for a class name that is not a valid token and that
the target does not carry, the call throws and changes nothing; when the target
already carries the class name, nothing changes. -/
theorem classToggle_exclusive (children : List Element) (target : Nat) (className : String)
    (t : Element) (ht : children[target]? = some t) :
    (t.classList.containsToken className = false →
      validateToken className = Except.ok () →
      ∃ r : List Element, classToggle children target className = Except.ok r ∧
        r.length = children.length ∧
        (∃ t2 : Element, r[target]? = some t2 ∧
          t2.classList.containsToken className = true) ∧
        (∀ (j : Nat) (c : Element), j ≠ target → r[j]? = some c →
          c.classList.containsToken className = false) ∧
        (∀ (j : Nat) (c : Element), children[j]? = some c →
          ∃ c2 : Element, r[j]? = some c2 ∧ c2.attrs = c.attrs ∧
            ∀ x, x ≠ className →
              c2.classList.containsToken x = c.classList.containsToken x)) ∧
    (t.classList.containsToken className = false →
      ∀ e : DOMException, validateToken className = Except.error e →
        classToggle children target className = Except.error e) ∧
    (t.classList.containsToken className = true →
      classToggle children target className = Except.ok children) := by
  refine ⟨?_, ?_, ?_⟩
  · intro hc hv
    have hadd := validateToken_of_valid className hv t.classList
    obtain ⟨r, hr, hlen, hg⟩ := classToggle_getElem? children target className t ht hc _ hadd
    refine ⟨r, hr, hlen, ?_, ?_, ?_⟩
    · refine ⟨{ t with classList :=
          if t.classList.containsToken className then t.classList
          else t.classList ++ [className] }, ?_, containsToken_add_self _ _ _ hadd⟩
      rw [hg, if_pos rfl]
    · intro j c hj hjc
      rw [hg, if_neg hj] at hjc
      cases hd : children[j]? with
      | none => rw [hd] at hjc; cases hjc
      | some c0 =>
        rw [hd] at hjc
        simp only [Option.map_some', Option.some.injEq] at hjc
        rw [← hjc]
        exact containsToken_removeToken_self _ _
    · intro j c hjc
      rw [hg]
      by_cases hj : j = target
      · subst hj
        rw [ht] at hjc
        cases hjc
        rw [if_pos rfl]
        exact ⟨_, rfl, rfl, fun x hx => containsToken_add_ne _ _ _ x hadd hx⟩
      · rw [if_neg hj, hjc]
        exact ⟨_, rfl, rfl, fun x hx => containsToken_removeToken_ne _ _ x hx⟩
  · intro hc e hv
    unfold classToggle ClassList.add
    rw [ht]
    simp only [hc, beq_self_eq_true, if_true, hv]
  · intro hc
    unfold classToggle
    rw [ht]
    simp [hc]

theorem classToggle_exclusive_witness :
    sampleTabs[1]? = some ⟨["tab"], []⟩ ∧
    ClassList.containsToken ["tab"] "active" = false ∧
    validateToken "active" = Except.ok () ∧
    classToggle sampleTabs 1 "active" = Except.ok
      [⟨["tab"], []⟩, ⟨["tab", "active"], []⟩, ⟨["tab"], [("data-modal", "m")]⟩] ∧
    ∃ r : List Element, classToggle sampleTabs 1 "active" = Except.ok r ∧
      r.length = sampleTabs.length ∧
      (∃ t2 : Element, r[1]? = some t2 ∧ t2.classList.containsToken "active" = true) ∧
      (∀ (j : Nat) (c : Element), j ≠ 1 → r[j]? = some c →
        c.classList.containsToken "active" = false) ∧
      (∀ (j : Nat) (c : Element), sampleTabs[j]? = some c →
        ∃ c2 : Element, r[j]? = some c2 ∧ c2.attrs = c.attrs ∧
          ∀ x, x ≠ "active" →
            c2.classList.containsToken x = c.classList.containsToken x) :=
  ⟨by decide, by decide, by decide, by decide,
    (classToggle_exclusive sampleTabs 1 "active" ⟨["tab"], []⟩ (by decide)).1
      (by decide) (by decide)⟩

end Marketplace
